import Mathlib

set_option maxRecDepth 4000

/-!
Shallow embedding of the payslip batch pipeline (NestJS/Prisma reference
implementation): the PDF splitter and identifier extractor
(`PdfService`), the email notifier (`EmailService.sendPayslip`), the ZIP
unpacker (`PdfService.extractPdfsFromZip`), the ingest job
(`PayslipQueueConsumer.processPayslipUpload`, duplicated in
`PayslipService.uploadAndProcess`), and the distribution job
(`PayslipService.sendBatch` and `PayslipQueueConsumer.processPayslipSend`).

Database rows are Lean structures; Prisma `update` calls are modelled as
field patches applied to the row with the matching id; JavaScript
exceptions are modelled with `Except`; external collaborators (pdf-parse,
the employee lookup, nodemailer, the filesystem) are oracles passed in as
environment records.
-/

namespace PayslipMailer

/-- JavaScript truthiness of a nullable string (`value` in a boolean
position): `null` and the empty string are falsy, any other string is
truthy. -/
def strTruthy : Option String → Bool
  | none => false
  | some s => s ≠ ""

/-- JavaScript `a || b` on a nullable string `a` with string default `b`:
the default is used when `a` is `null` or the empty string. -/
def jsOr (a : Option String) (b : String) : String :=
  match a with
  | none => b
  | some s => if s = "" then b else s

/-- JavaScript string interpolation of a nullable string: interpolating
`null` into a template literal yields the text `null`. -/
def jsInterp : Option String → String
  | none => "null"
  | some s => s

/-- Row of the `employees` table (the fields the pipeline reads). -/
structure Employee where
  id : Nat
  ippisNumber : String
  email : String
  firstName : String
  lastName : String
deriving Repr, DecidableEq

/-- Row of the `payslips` table (the fields the pipeline reads or writes).
Timestamps are abstract `Nat` instants. -/
structure Payslip where
  id : Nat
  ippisNumber : String
  fileName : String
  filePath : String
  pdfContent : Nat
  employeeId : Nat
  uploadId : Nat
  payMonth : String
  emailSent : Bool
  emailSentAt : Option Nat
  emailError : Option String
  deletedAt : Option Nat
deriving Repr, DecidableEq

/-- Row of the `payslip_uploads` table (one upload batch). The schema has
`totalFiles`, `processedFiles`, `successCount` and `failureCount`
columns, but no column for a skipped count. -/
structure PayslipUpload where
  id : Nat
  payMonth : String
  fileName : String
  totalFiles : Nat
  processedFiles : Nat
  successCount : Nat
  failureCount : Nat
  status : String
  emailStatus : String
  sentAt : Option Nat
  completedAt : Option Nat
  deletedAt : Option Nat
deriving Repr, DecidableEq

/-- The spec's per-record delivery state, read off a `payslips` row:
`sent` when `emailSent` is set, otherwise `send-failed` when a last error
is recorded, otherwise `not-sent`. -/
inductive DeliveryState where
  | notSent
  | sent
  | sendFailed
deriving Repr, DecidableEq

def deliveryState (p : Payslip) : DeliveryState :=
  if p.emailSent then .sent
  else if p.emailError.isSome then .sendFailed
  else .notSent

/-! ### PdfService: identifier extraction and splitting -/

/-- Abstract view of one PDF buffer: an opaque buffer id, whether
`pdf-parse` succeeds on it, and the (already captured) result of the
IPPIS regex match `IPPIS\s*:?\s*([A-Z0-9]+)` on its extracted text —
`none` when the pattern does not match. The captured group contains no
whitespace, so the source's `.trim()` is the identity on it. -/
structure PdfDoc where
  bytes : Nat
  parseOk : Bool
  ippisMatch : Option String
deriving Repr, DecidableEq

/-- `PdfService.extractIppisFromPdf`: parse the PDF and run the IPPIS
regex. A match failure yields `null` (no error); a parse failure is
caught and rethrown as `BadRequestException('Failed to parse PDF file')`. -/
def extractIppisFromPdf (d : PdfDoc) : Except String (Option String) :=
  if d.parseOk then .ok d.ippisMatch
  else .error "Failed to parse PDF file"

/-- One candidate document produced by the splitter: the extracted
identifier (possibly `null`) and the document buffer. -/
structure Candidate where
  ippisNumber : Option String
  pdfBuffer : Nat
deriving Repr, DecidableEq

/-- `PdfService.splitBulkPdf`: parses the buffer, treats the whole input
as a single candidate carrying `extractIppisFromPdf`'s result, then
filters out candidates whose identifier is `null`
(`result.filter((r) => r.ippisNumber !== null)`). Any parse error is
caught and rethrown as `BadRequestException('Failed to split PDF file')`. -/
def splitBulkPdf (d : PdfDoc) : Except String (List Candidate) :=
  if d.parseOk then
    .ok (([⟨d.ippisMatch, d.bytes⟩] : List Candidate).filter
      (fun r => r.ippisNumber ≠ none))
  else .error "Failed to split PDF file"

/-! ### EmailService.sendPayslip -/

/-- `EmailService.sendPayslip`: one `transporter.sendMail` call, whose
outcome (resolve or reject with a message) is the input. The whole body
is wrapped in try/catch: a resolved send returns `true`, any thrown
transport error is caught and returns `false`. The result is `Except` so
that an uncaught exception would be visible as `.error`. -/
def sendPayslip (transport : Except String Unit) : Except String Bool :=
  match transport with
  | .ok _ => .ok true
  | .error _ => .ok false

/-! ### PdfService.extractPdfsFromZip -/

/-- One entry of a loaded ZIP archive, as the recursive unpacker sees it:
a directory, a plain file entry (whose bytes do not decode as a ZIP
archive), or a file entry whose bytes decode as a nested archive with its
own entries. Dispatch in the source is on the entry *name* suffix, kept
in each constructor. -/
inductive ZipEntry where
  | dirE (name : String)
  | docE (name : String) (buf : Nat)
  | zipE (name : String) (buf : Nat) (entries : List ZipEntry)
deriving Repr

def zipEntryName : ZipEntry → String
  | .dirE n => n
  | .docE n _ => n
  | .zipE n _ _ => n

/-- `String.prototype.toLowerCase`, over the character list so that it
evaluates by kernel reduction. -/
def jsToLower (s : String) : String := ⟨s.data.map Char.toLower⟩

/-- `String.prototype.endsWith`, over the character list. -/
def jsEndsWith (s suffix : String) : Bool :=
  List.isSuffixOf suffix.data s.data

/-- `path.basename`: the part of the name after the last slash. -/
def pathBasename (n : String) : String :=
  ⟨(n.data.reverse.takeWhile (fun c => c ≠ '/')).reverse⟩

def isPdfName (n : String) : Bool := jsEndsWith (jsToLower n) ".pdf"

def isZipName (n : String) : Bool := jsEndsWith (jsToLower n) ".zip"

/-- `PdfService.extractPdfsFromZip`: walks the entries in order; skips
directories; pushes `.pdf`-named entries as `(basename, buffer)`;
recursively unpacks `.zip`-named entries, prefixing each nested result
with `basename::`; ignores every other entry. A `.zip`-named entry whose
bytes do not decode as an archive makes `JSZip.loadAsync` throw, which
the catch rethrows as `BadRequestException('Failed to extract ZIP
archive')`. There is no depth counter and no size accumulator anywhere in
the function. -/
def extractPdfsFromZip : List ZipEntry → Except String (List (String × Nat))
  | [] => .ok []
  | .dirE _ :: rest => extractPdfsFromZip rest
  | .docE name buf :: rest =>
    if isPdfName name then
      (match extractPdfsFromZip rest with
       | .ok fs => .ok ((pathBasename name, buf) :: fs)
       | .error e => .error e)
    else if isZipName name then .error "Failed to extract ZIP archive"
    else extractPdfsFromZip rest
  | .zipE name buf entries :: rest =>
    if isPdfName name then
      (match extractPdfsFromZip rest with
       | .ok fs => .ok ((pathBasename name, buf) :: fs)
       | .error e => .error e)
    else if isZipName name then
      (match extractPdfsFromZip entries with
       | .error e => .error e
       | .ok nested =>
         match extractPdfsFromZip rest with
         | .error e => .error e
         | .ok fs =>
           .ok (nested.map
             (fun nf => (pathBasename name ++ "::" ++ nf.1, nf.2)) ++ fs))
    else extractPdfsFromZip rest

/-! ### Database state -/

/-- The mutable store: the `payslip_uploads` and `payslips` tables plus
the serial id counter for new `payslips` rows. -/
structure SysState where
  batches : List PayslipUpload
  payslips : List Payslip
  nextPayslipId : Nat
deriving Repr, DecidableEq

/-- `prisma.payslipUpload.findFirst({ where: { id, deletedAt: null } })`.
The source also accepts the shareable uuid; the lookup key is modelled by
the numeric id alone. -/
def findBatch (st : SysState) (batchId : Nat) : Option PayslipUpload :=
  st.batches.find? (fun b => b.id == batchId && b.deletedAt.isNone)

/-- `prisma.payslipUpload.update({ where: { id }, data: ... })`: apply a
field patch to the row with the matching id. -/
def updateBatch (st : SysState) (batchId : Nat)
    (f : PayslipUpload → PayslipUpload) : SysState :=
  { st with
    batches := st.batches.map (fun b => if b.id = batchId then f b else b) }

/-- `prisma.payslip.update({ where: { id }, data: ... })`: apply a field
patch to the row with the matching id. -/
def updatePayslip (db : List Payslip) (id : Nat)
    (f : Payslip → Payslip) : List Payslip :=
  db.map (fun p => if p.id = id then f p else p)

/-! ### Chunking

Both jobs slice their work list into fixed-size chunks
(`for (let i = 0; i < xs.length; i += SIZE) { const chunk = xs.slice(i, i + SIZE); ... }`).
The recursion is fuelled by the list length so that it is structural and
evaluates by kernel reduction. -/

def chunksGo (n : Nat) : Nat → List α → List (List α)
  | _, [] => []
  | 0, l => [l]
  | fuel + 1, l => l.take n :: chunksGo n fuel (l.drop n)

def chunkList (n : Nat) (l : List α) : List (List α) :=
  chunksGo n l.length l

/-! ### Distribution: the shared per-record send loop

`PayslipService.sendBatch` (lines 481–543) and
`PayslipQueueConsumer.processPayslipSend` (lines 361–436) contain the
same loop body verbatim; it is embedded once. -/

/-- Outcome of one `EmailService.sendPayslip` invocation together with
the per-record store writes that follow it: the notifier resolved `true`,
resolved `false`, or something in the iteration threw (transport
exception already caught inside `sendPayslip` cannot throw here, but
`Buffer.from`/`prisma.payslip.update` can; the catch records the
message). -/
inductive SendOutcome where
  | delivered
  | returnedFalse
  | threw (msg : String)
deriving Repr, DecidableEq

/-- External environment of one distribution run: the notifier oracle,
keyed by payslip id, and the clock. -/
structure SendEnv where
  notify : Nat → SendOutcome
  now : Nat

/-- Success/failure/skip counters of one distribution run. -/
structure SendCounts where
  success : Nat
  failure : Nat
  skipped : Nat
deriving Repr, DecidableEq

/-- The per-record re-check immediately before sending:
`payslip.emailSent && payslip.emailSentAt && !payslip.emailError`
evaluated on the in-memory row fetched at selection time (JavaScript
truthiness on the nullable error string). -/
def alreadySentCheck (p : Payslip) : Bool :=
  p.emailSent && p.emailSentAt.isSome && !(strTruthy p.emailError)

/-- The inner `for (const payslip of emailBatch)` loop: for each fetched
row, skip it when the re-check fires (no store write, no notifier call);
otherwise send and patch the row by id — on `true` set sent fields and
clear the error, on `false` or a thrown error record the error message. -/
def sendLoop (env : SendEnv) :
    List Payslip → List Payslip → SendCounts → List Payslip × SendCounts
  | [], db, c => (db, c)
  | p :: rest, db, c =>
    if alreadySentCheck p then
      sendLoop env rest db { c with skipped := c.skipped + 1 }
    else
      match env.notify p.id with
      | .delivered =>
        sendLoop env rest
          (updatePayslip db p.id (fun q =>
            { q with emailSent := true, emailSentAt := some env.now,
                     emailError := none }))
          { c with success := c.success + 1 }
      | .returnedFalse =>
        sendLoop env rest
          (updatePayslip db p.id (fun q =>
            { q with emailError := some "Failed to send email" }))
          { c with failure := c.failure + 1 }
      | .threw msg =>
        sendLoop env rest
          (updatePayslip db p.id (fun q => { q with emailError := some msg }))
          { c with failure := c.failure + 1 }

/-- The outer chunk loop (`EMAIL_BATCH_SIZE = 10`, with a 1-second delay
between chunks that has no observable effect on the store). -/
def sendChunks (env : SendEnv) (sel : List Payslip) (db : List Payslip) :
    List Payslip × SendCounts :=
  (chunkList 10 sel).foldl
    (fun acc ch => sendLoop env ch acc.1 acc.2) (db, ⟨0, 0, 0⟩)

/-- Selection of the records to (re)send, from the `include.payslips`
relation filter of the batch fetch:
`where: { deletedAt: null, OR: [{ emailSent: false }, { emailError: { not: null } }] }`. -/
def selectForSend (db : List Payslip) (batchId : Nat) : List Payslip :=
  db.filter (fun p =>
    p.uploadId == batchId && p.deletedAt.isNone &&
      (!p.emailSent || p.emailError.isSome))

/-- `if (failureCount > 0 && successCount > 0) 'partial' else if
(failureCount > 0 && successCount === 0) 'failed' else 'completed'`. -/
def finalEmailStatus (c : SendCounts) : String :=
  if c.failure > 0 && c.success > 0 then "partial"
  else if c.failure > 0 && c.success == 0 then "failed"
  else "completed"

/-- Result object returned by `PayslipQueueConsumer.processPayslipSend`. -/
structure SendJobResult where
  totalPayslips : Nat
  successCount : Nat
  failureCount : Nat
  skippedCount : Nat
  emailStatus : String
  message : Option String
deriving Repr, DecidableEq

/-- `PayslipQueueConsumer.processPayslipSend`: fetch the batch with its
outstanding payslips; a missing batch throws. Empty selection: mark the
batch completed and return zero counts with the already-sent note.
Otherwise run the chunked send loop and persist `status: 'completed'`,
the computed `emailStatus`, `successCount`, `failureCount` and
`completedAt` on the batch (the schema has no column for the skipped
count, which is only returned). There is no precondition check on the
batch's `status` or `emailStatus` in this handler. -/
def processPayslipSend (env : SendEnv) (st : SysState) (batchId : Nat) :
    SysState × Except String SendJobResult :=
  match findBatch st batchId with
  | none => (st, .error "Batch not found")
  | some b =>
    let sel := selectForSend st.payslips b.id
    if sel.isEmpty then
      (updateBatch st b.id (fun u =>
        { u with status := "completed", emailStatus := "completed",
                 completedAt := some env.now }),
       .ok { totalPayslips := 0, successCount := 0, failureCount := 0,
             skippedCount := 0, emailStatus := "completed",
             message := some "All payslips already sent" })
    else
      let r := sendChunks env sel st.payslips
      let es := finalEmailStatus r.2
      let st' := updateBatch { st with payslips := r.1 } b.id (fun u =>
        { u with status := "completed", emailStatus := es,
                 successCount := r.2.success, failureCount := r.2.failure,
                 completedAt := some env.now })
      (st', .ok { totalPayslips := sel.length, successCount := r.2.success,
                  failureCount := r.2.failure, skippedCount := r.2.skipped,
                  emailStatus := es, message := none })

/-- Result object returned by `PayslipService.sendBatch`. The
already-sent early return carries no `skippedCount` property (modelled
as `none`) and echoes the batch's stored timestamps. -/
structure BatchSendResult where
  totalPayslips : Nat
  successCount : Nat
  failureCount : Nat
  skippedCount : Option Nat
  emailStatus : String
  message : Option String
  sentAt : Option Nat
  completedAt : Option Nat
deriving Repr, DecidableEq

/-- `PayslipService.sendBatch`: fetch the batch (with the same
outstanding-payslips filter); a missing batch throws `'Batch not
found'`; a batch whose `status` is not `'processed'` is rejected with
`'Batch status is "..."...'` — this is the only precondition; the
`emailStatus` field (which is `'sending'` while a run is in progress) is
not consulted. Empty selection: return zero counts and the already-sent
note without touching the store. Otherwise set `emailStatus: 'sending'`
and `sentAt`, run the chunked send loop, and persist the final counts,
`status: 'completed'`, the computed `emailStatus` and `completedAt`. -/
def sendBatch (env : SendEnv) (st : SysState) (batchId : Nat) :
    SysState × Except String BatchSendResult :=
  match findBatch st batchId with
  | none => (st, .error "Batch not found")
  | some b =>
    if b.status = "processed" then
      let sel := selectForSend st.payslips b.id
      if sel.isEmpty then
        (st, .ok { totalPayslips := 0, successCount := 0, failureCount := 0,
                   skippedCount := none, emailStatus := "completed",
                   message := some "All payslips already sent",
                   sentAt := b.sentAt, completedAt := b.completedAt })
      else
        let st1 := updateBatch st b.id (fun u =>
          { u with emailStatus := "sending", sentAt := some env.now })
        let r := sendChunks env sel st1.payslips
        let es := finalEmailStatus r.2
        let st2 := updateBatch { st1 with payslips := r.1 } b.id (fun u =>
          { u with status := "completed", emailStatus := es,
                   successCount := r.2.success, failureCount := r.2.failure,
                   completedAt := some env.now })
        (st2, .ok { totalPayslips := r.2.success + r.2.failure + r.2.skipped,
                    successCount := r.2.success, failureCount := r.2.failure,
                    skippedCount := some r.2.skipped, emailStatus := es,
                    message := none, sentAt := some env.now,
                    completedAt := some env.now })
    else
      (st, .error ("Batch status is \"" ++ b.status ++
        "\". Only \"processed\" batches can be sent."))

/-! ### Ingest

`PayslipQueueConsumer.processPayslipUpload` (part_010 lines 79–279);
`PayslipService.uploadAndProcess` (payslip.service.ts lines 34–178)
duplicates the same extraction and counting logic. -/

/-- What the uploaded bytes decode as: a single (non-archive) document,
or a ZIP archive with its entries. -/
inductive UploadInput where
  | singleDoc (d : PdfDoc)
  | archive (entries : List ZipEntry)

/-- Outcome of `employeeService.findByIppisNumber`: a row, `null`, or a
thrown store error. -/
inductive ResolveOutcome where
  | found (e : Employee)
  | notFound
  | threwR (msg : String)

/-- External environment of one ingest run: the parsed view of each
document buffer, the employee lookup oracle, the per-buffer store oracle
(`savePdfFile` + `prisma.payslip.create`; `none` means both succeeded,
`some msg` means one of them threw), and the clock. -/
structure IngestEnv where
  docOf : Nat → PdfDoc
  resolve : String → ResolveOutcome
  store : Nat → Option String
  now : Nat

/-- One enqueued `payslip-upload` job payload. -/
structure UploadJob where
  uploadId : Nat
  fileName : String
  payMonth : String
  input : UploadInput

/-- Split a character list at the first occurrence of a pattern:
the part before it and the part after it, or `none` when the pattern
does not occur. -/
def firstSplit (pat : List Char) : List Char → Option (List Char × List Char)
  | [] => if List.isPrefixOf pat [] then some ([], []) else none
  | c :: cs =>
    if List.isPrefixOf pat (c :: cs) then
      some ([], (c :: cs).drop pat.length)
    else
      match firstSplit pat cs with
      | some pp => some (c :: pp.1, pp.2)
      | none => none

/-- JavaScript `String.prototype.replace` with a string pattern: replace
only the first occurrence, or return the string unchanged when the
pattern does not occur. -/
def replaceFirst (s pat rep : String) : String :=
  match firstSplit pat.data s.data with
  | none => s
  | some pp => ⟨pp.1⟩ ++ rep ++ ⟨pp.2⟩

/-- `pdfService.splitBulkPdf` applied to every PDF extracted from the
archive, concatenating the candidate lists in order. -/
def splitAll (docOf : Nat → PdfDoc) :
    List (String × Nat) → Except String (List Candidate)
  | [] => .ok []
  | f :: rest =>
    match splitBulkPdf (docOf f.2) with
    | .error e => .error e
    | .ok parts =>
      match splitAll docOf rest with
      | .error e => .error e
      | .ok more => .ok (parts ++ more)

/-- The extraction phase: by filename suffix, either unzip (recursively)
and split each contained PDF, or split the single uploaded PDF. A `.zip`
filename whose bytes are not an archive makes `JSZip.loadAsync` throw; a
non-`.zip` filename whose bytes are not a parseable PDF makes
`pdf-parse` throw inside `splitBulkPdf`. -/
def extractCandidates (docOf : Nat → PdfDoc) (fileName : String)
    (input : UploadInput) : Except String (List Candidate) :=
  if isZipName fileName then
    match input with
    | .archive es =>
      match extractPdfsFromZip es with
      | .error e => .error e
      | .ok files => splitAll docOf files
    | .singleDoc _ => .error "Failed to extract ZIP archive"
  else
    match input with
    | .singleDoc d => splitBulkPdf d
    | .archive _ => .error "Failed to split PDF file"

/-- The `payslips` row created for one resolved candidate
(`prisma.payslip.create`): note `ippisNumber: payslip.ippisNumber || ''`
and the template-literal file name interpolating the possibly-null
identifier. -/
def mkPayslip (id : Nat) (c : Candidate) (emp : Employee)
    (uploadId : Nat) (fileName payMonth : String) : Payslip :=
  { id := id
    ippisNumber := jsOr c.ippisNumber ""
    fileName := jsInterp c.ippisNumber ++ "-" ++
      replaceFirst fileName ".zip" ".pdf"
    filePath := "uploads/" ++ toString uploadId ++ "/" ++
      jsInterp c.ippisNumber ++ ".pdf"
    pdfContent := c.pdfBuffer
    employeeId := emp.id
    uploadId := uploadId
    payMonth := payMonth
    emailSent := false
    emailSentAt := none
    emailError := none
    deletedAt := none }

/-- Accumulator of the per-candidate ingest loop: the rows created so
far, the two counters, the serial id counter, and the first thrown error
if any (an error aborts the loop; rows created before it stay
persisted). -/
structure IngestAcc where
  recs : List Payslip
  processed : Nat
  failed : Nat
  nextId : Nat
  err : Option String
deriving Repr, DecidableEq

/-- The inner `for (const payslip of batch)` loop of the ingest job: per
candidate, look up the employee by the extracted identifier with the
`'IPPIS4536'` fallback for a falsy one; `null` increments `failedCount`
and continues; a row is created and `processedCount` incremented on
success; a thrown lookup or store error aborts the whole loop. -/
def ingestLoop (env : IngestEnv) (uploadId : Nat)
    (fileName payMonth : String) :
    List Candidate → IngestAcc → IngestAcc
  | [], acc => acc
  | c :: rest, acc =>
    match acc.err with
    | some _ => acc
    | none =>
      match env.resolve (jsOr c.ippisNumber "IPPIS4536") with
      | .threwR msg => { acc with err := some msg }
      | .notFound =>
        ingestLoop env uploadId fileName payMonth rest
          { acc with failed := acc.failed + 1 }
      | .found emp =>
        match env.store c.pdfBuffer with
        | some msg => { acc with err := some msg }
        | none =>
          ingestLoop env uploadId fileName payMonth rest
            { acc with
              recs := acc.recs ++
                [mkPayslip acc.nextId c emp uploadId fileName payMonth]
              processed := acc.processed + 1
              nextId := acc.nextId + 1 }

/-- The outer chunk loop of the ingest job (`BATCH_SIZE = 50`; the
chunk-boundary buffer release has no observable effect on the store). -/
def ingestChunks (env : IngestEnv) (uploadId : Nat)
    (fileName payMonth : String) (cands : List Candidate)
    (acc : IngestAcc) : IngestAcc :=
  (chunkList 50 cands).foldl
    (fun a ch => ingestLoop env uploadId fileName payMonth ch a) acc

/-- Result object returned by a completed ingest run. -/
structure IngestResult where
  uploadId : Nat
  processedFiles : Nat
  failedFiles : Nat
  totalFiles : Nat
deriving Repr, DecidableEq

/-- `PayslipQueueConsumer.processPayslipUpload`: mark the batch
`'processing'`; run the extraction phase; persist `totalFiles` as the
candidate count; run the chunked per-candidate loop; on completion
persist `status: 'processed'`, `processedFiles` and `totalFiles =
processed + failed`. Any error — extraction, lookup or store — is caught
by the surrounding try/catch, which sets `status: 'failed'` and
rethrows, failing the job; rows created before the error remain. -/
def processPayslipUpload (env : IngestEnv) (st : SysState)
    (job : UploadJob) : SysState × Except String IngestResult :=
  match findBatch st job.uploadId with
  | none => (st, .error "Record to update not found.")
  | some _ =>
    let st1 := updateBatch st job.uploadId
      (fun u => { u with status := "processing" })
    match extractCandidates env.docOf job.fileName job.input with
    | .error e =>
      (updateBatch st1 job.uploadId (fun u => { u with status := "failed" }),
       .error e)
    | .ok cands =>
      let st2 := updateBatch st1 job.uploadId
        (fun u => { u with totalFiles := cands.length })
      let acc := ingestChunks env job.uploadId job.fileName job.payMonth
        cands ⟨[], 0, 0, st.nextPayslipId, none⟩
      let st3 := { st2 with
        payslips := st2.payslips ++ acc.recs
        nextPayslipId := acc.nextId }
      match acc.err with
      | some e =>
        (updateBatch st3 job.uploadId (fun u => { u with status := "failed" }),
         .error e)
      | none =>
        (updateBatch st3 job.uploadId (fun u =>
          { u with status := "processed", processedFiles := acc.processed,
                   totalFiles := acc.processed + acc.failed }),
         .ok { uploadId := job.uploadId, processedFiles := acc.processed,
               failedFiles := acc.failed,
               totalFiles := acc.processed + acc.failed })

/-! ### Job runtime -/

/-- Terminal phase of one job submission as the worker runtime reports
it. -/
inductive JobPhase where
  | done (r : IngestResult)
  | failedJob (e : String)

/-- Modelled from the spec: the queue producer and its retry
configuration for the payslip queue are not part of src/ (only the
`@Processor(..., { concurrency: 1, limiter: ... })` consumer is). Per
§4.6, the worker runtime runs a submitted job's handler exactly once; a
thrown error moves the submission to the failed phase with that reason,
and there is no automatic retry — a retry is an explicit new
submission. -/
def runPayslipUploadJob (env : IngestEnv) (st : SysState)
    (job : UploadJob) : SysState × JobPhase :=
  match processPayslipUpload env st job with
  | (st', .ok r) => (st', .done r)
  | (st', .error e) => (st', .failedJob e)

/-! ### Operation sequences over the store -/

/-- One pipeline operation: an ingest run, a queued distribution run, or
a synchronous distribution run. -/
inductive Op where
  | ingestOp (env : IngestEnv) (job : UploadJob)
  | sendJobOp (env : SendEnv) (batchId : Nat)
  | sendBatchOp (env : SendEnv) (batchId : Nat)

def applyOp (st : SysState) : Op → SysState
  | .ingestOp env job => (processPayslipUpload env st job).1
  | .sendJobOp env bid => (processPayslipSend env st bid).1
  | .sendBatchOp env bid => (sendBatch env st bid).1

def applyOps (st : SysState) (ops : List Op) : SysState :=
  ops.foldl applyOp st

/-! ### Recursion depth and aggregate size of the ZIP unpacker -/

/-- Nesting depth that `extractPdfsFromZip` recurses through: one level
for every `.zip`-named (and not `.pdf`-named) entry it unpacks. The
source recursion descends exactly on those entries. -/
def nestDepth : List ZipEntry → Nat
  | [] => 0
  | .zipE name _ entries :: rest =>
    if !(isPdfName name) && isZipName name then
      max (1 + nestDepth entries) (nestDepth rest)
    else nestDepth rest
  | _ :: rest => nestDepth rest

/-- Aggregate decompressed size that `extractPdfsFromZip` materialises:
the total size of every document buffer it extracts, taking the opaque
buffer value as its size. -/
def aggSize : List ZipEntry → Nat
  | [] => 0
  | .dirE _ :: rest => aggSize rest
  | .docE name buf :: rest =>
    (if isPdfName name then buf else 0) + aggSize rest
  | .zipE name buf entries :: rest =>
    if isPdfName name then buf + aggSize rest
    else if isZipName name then aggSize entries + aggSize rest
    else aggSize rest

/-- A ZIP archive nested `n` levels deep with a single document at the
bottom. -/
def deepZip : Nat → List ZipEntry
  | 0 => [.docE "a.pdf" 1]
  | n + 1 => [.zipE "b.zip" 1 (deepZip n)]

/-- The composite path tag the unpacker produces for `deepZip`. -/
def deepName : Nat → String
  | 0 => "a.pdf"
  | n + 1 => "b.zip::" ++ deepName n


/-! ### Record-level and store-level invariants -/

/-- The spec's per-record invariant, phrased over the row fields: a sent
record has its timestamp set and no last error. -/
def RecordInv (p : Payslip) : Prop :=
  p.emailSent = true → p.emailSentAt.isSome = true ∧ p.emailError = none

instance (p : Payslip) : Decidable (RecordInv p) := by
  unfold RecordInv
  infer_instance

/-- Well-formedness of the store: row ids are distinct, below the serial
counter, and every row satisfies the record invariant. -/
def SysInv (st : SysState) : Prop :=
  (st.payslips.map (fun p => p.id)).Nodup ∧
  (∀ p ∈ st.payslips, p.id < st.nextPayslipId) ∧
  (∀ p ∈ st.payslips, RecordInv p)

/-! ### Concrete fixtures used by counterexamples and witnesses -/

/-- A batch whose distribution run is in progress: ingest finished
(`status: 'processed'`) and a send run already started
(`emailStatus: 'sending'`, `sentAt` set). -/
def batchDistributing : PayslipUpload :=
  { id := 1, payMonth := "2025-12", fileName := "a.pdf", totalFiles := 1,
    processedFiles := 1, successCount := 0, failureCount := 0,
    status := "processed", emailStatus := "sending", sentAt := some 5,
    completedAt := none, deletedAt := none }

/-- A ready-to-send batch that has not started distribution. -/
def batchProcessed : PayslipUpload :=
  { id := 1, payMonth := "2025-12", fileName := "a.pdf", totalFiles := 2,
    processedFiles := 2, successCount := 0, failureCount := 0,
    status := "processed", emailStatus := "pending", sentAt := none,
    completedAt := none, deletedAt := none }

/-- A batch whose previous distribution run completed. -/
def batchDone : PayslipUpload :=
  { id := 1, payMonth := "2025-12", fileName := "a.pdf", totalFiles := 1,
    processedFiles := 1, successCount := 1, failureCount := 0,
    status := "completed", emailStatus := "completed", sentAt := some 5,
    completedAt := some 6, deletedAt := none }

/-- A batch in the initial state, before its ingest run. -/
def batchIngest : PayslipUpload :=
  { id := 1, payMonth := "2025-12", fileName := "a.pdf", totalFiles := 1,
    processedFiles := 0, successCount := 0, failureCount := 0,
    status := "pending", emailStatus := "pending", sentAt := none,
    completedAt := none, deletedAt := none }

/-- An undelivered payslip row of batch 1. -/
def recUnsent : Payslip :=
  { id := 1, ippisNumber := "IPPIS001", fileName := "IPPIS001-a.pdf",
    filePath := "uploads/1/IPPIS001.pdf", pdfContent := 7, employeeId := 3,
    uploadId := 1, payMonth := "2025-12", emailSent := false,
    emailSentAt := none, emailError := none, deletedAt := none }

/-- A successfully delivered payslip row of batch 1. -/
def recSent : Payslip :=
  { id := 1, ippisNumber := "IPPIS001", fileName := "IPPIS001-a.pdf",
    filePath := "uploads/1/IPPIS001.pdf", pdfContent := 7, employeeId := 3,
    uploadId := 1, payMonth := "2025-12", emailSent := true,
    emailSentAt := some 6, emailError := none, deletedAt := none }

/-- A payslip row whose last send failed. -/
def recFailed : Payslip :=
  { id := 3, ippisNumber := "IPPIS003", fileName := "IPPIS003-a.pdf",
    filePath := "uploads/1/IPPIS003.pdf", pdfContent := 9, employeeId := 5,
    uploadId := 1, payMonth := "2025-12", emailSent := false,
    emailSentAt := none, emailError := some "Failed to send email",
    deletedAt := none }

/-- A row that the selection query picks up (its error column is
non-null) but that the per-record re-check then skips (the error string
is empty, hence falsy). -/
def recSkip : Payslip :=
  { id := 2, ippisNumber := "IPPIS002", fileName := "IPPIS002-a.pdf",
    filePath := "uploads/1/IPPIS002.pdf", pdfContent := 8, employeeId := 4,
    uploadId := 1, payMonth := "2025-12", emailSent := true,
    emailSentAt := some 6, emailError := some "", deletedAt := none }

/-- A notifier that always delivers, at instant 10. -/
def envDeliver : SendEnv := { notify := fun _ => .delivered, now := 10 }

def stDistributing : SysState :=
  { batches := [batchDistributing], payslips := [recUnsent],
    nextPayslipId := 2 }

def stAllSent : SysState :=
  { batches := [batchDone], payslips := [recSent], nextPayslipId := 2 }

def stSkipPair : SysState :=
  { batches := [batchProcessed], payslips := [recSkip, recUnsent],
    nextPayslipId := 3 }

def stNoSkip : SysState :=
  { batches := [batchProcessed], payslips := [recUnsent],
    nextPayslipId := 3 }

/-- A parseable document whose IPPIS pattern matches. -/
def docMatch : PdfDoc := { bytes := 7, parseOk := true,
                           ippisMatch := some "IPPIS001" }

/-- A parseable document in which the IPPIS pattern does not match. -/
def docNoMatch : PdfDoc := { bytes := 5, parseOk := true,
                             ippisMatch := none }

/-- A document that `pdf-parse` cannot parse. -/
def docBad : PdfDoc := { bytes := 9, parseOk := false, ippisMatch := none }

def empRes : Employee :=
  { id := 3, ippisNumber := "IPPIS001", email := "a@b.c", firstName := "A",
    lastName := "B" }

/-- Ingest environment whose lookup resolves exactly `IPPIS001`. -/
def envIngest : IngestEnv :=
  { docOf := fun _ => docMatch,
    resolve := fun s => if s = "IPPIS001" then .found empRes else .notFound,
    store := fun _ => none, now := 4 }

/-- Ingest environment whose lookup never resolves. -/
def envNoRes : IngestEnv :=
  { docOf := fun _ => docNoMatch, resolve := fun _ => .notFound,
    store := fun _ => none, now := 4 }

/-- Ingest environment whose lookup always resolves. -/
def envAllRes : IngestEnv :=
  { docOf := fun _ => docNoMatch, resolve := fun _ => .found empRes,
    store := fun _ => none, now := 4 }

/-- Ingest environment in which parsing the uploaded document fails. -/
def envBadParse : IngestEnv :=
  { docOf := fun _ => docBad, resolve := fun _ => .notFound,
    store := fun _ => none, now := 4 }

def stIngest : SysState :=
  { batches := [batchIngest], payslips := [], nextPayslipId := 1 }

def jobIngest : UploadJob :=
  { uploadId := 1, fileName := "a.pdf", payMonth := "2025-12",
    input := .singleDoc docMatch }

def jobNoMatch : UploadJob :=
  { uploadId := 1, fileName := "a.pdf", payMonth := "2025-12",
    input := .singleDoc docNoMatch }

def jobBad : UploadJob :=
  { uploadId := 1, fileName := "a.pdf", payMonth := "2025-12",
    input := .singleDoc docBad }

/-- The row the ingest run of `jobIngest` creates. -/
def recCreated : Payslip :=
  { id := 1, ippisNumber := "IPPIS001", fileName := "IPPIS001-a.pdf",
    filePath := "uploads/1/IPPIS001.pdf", pdfContent := 7, employeeId := 3,
    uploadId := 1, payMonth := "2025-12", emailSent := false,
    emailSentAt := none, emailError := none, deletedAt := none }

/-! ### Chunking is a no-op on the store and the counters -/

lemma chunksGo_join (n : Nat) (hn : 1 ≤ n) :
    ∀ (fuel : Nat) (l : List α), l.length ≤ fuel →
      (chunksGo n fuel l).flatten = l := by
  intro fuel
  induction fuel with
  | zero =>
    intro l h
    have hl : l = [] := List.eq_nil_of_length_eq_zero (Nat.le_zero.mp h)
    subst hl
    simp [chunksGo]
  | succ fuel ih =>
    intro l h
    cases l with
    | nil => simp [chunksGo]
    | cons c cs =>
      have hdrop : ((c :: cs).drop n).length ≤ fuel := by
        simp only [List.length_drop, List.length_cons]
        simp only [List.length_cons] at h
        omega
      calc (chunksGo n (fuel + 1) (c :: cs)).flatten
          = (c :: cs).take n ++ (chunksGo n fuel ((c :: cs).drop n)).flatten := by
            simp [chunksGo]
        _ = (c :: cs).take n ++ (c :: cs).drop n := by rw [ih _ hdrop]
        _ = c :: cs := List.take_append_drop n (c :: cs)

lemma chunkList_join (n : Nat) (hn : 1 ≤ n) (l : List α) :
    (chunkList n l).flatten = l :=
  chunksGo_join n hn l.length l (Nat.le_refl _)

lemma sendLoop_append (env : SendEnv) :
    ∀ (l1 l2 : List Payslip) (db : List Payslip) (c : SendCounts),
      sendLoop env (l1 ++ l2) db c =
        sendLoop env l2 (sendLoop env l1 db c).1 (sendLoop env l1 db c).2 := by
  intro l1
  induction l1 with
  | nil => intro l2 db c; simp [sendLoop]
  | cons p rest ih =>
    intro l2 db c
    simp only [List.cons_append, sendLoop]
    split
    · exact ih l2 db _
    · cases env.notify p.id <;> exact ih l2 _ _

lemma foldl_sendLoop_join (env : SendEnv) :
    ∀ (chs : List (List Payslip)) (db : List Payslip) (c : SendCounts),
      chs.foldl (fun acc ch => sendLoop env ch acc.1 acc.2) (db, c) =
        sendLoop env chs.flatten db c := by
  intro chs
  induction chs with
  | nil => intro db c; simp [sendLoop]
  | cons ch chs ih =>
    intro db c
    simp only [List.foldl_cons, List.flatten_cons]
    rw [sendLoop_append env ch chs.flatten db c, ← ih]

/-- The chunked send loop computes exactly the flat per-record loop. -/
lemma sendChunks_eq (env : SendEnv) (sel db : List Payslip) :
    sendChunks env sel db = sendLoop env sel db ⟨0, 0, 0⟩ := by
  unfold sendChunks
  rw [foldl_sendLoop_join env, chunkList_join 10 (by omega)]

lemma ingestLoop_stopped (env : IngestEnv) (u : Nat) (fn pm : String) :
    ∀ (l : List Candidate) (acc : IngestAcc), acc.err.isSome →
      ingestLoop env u fn pm l acc = acc := by
  intro l acc h
  cases l with
  | nil => rfl
  | cons c rest =>
    rcases hs : acc.err with _ | e
    · rw [hs] at h; simp at h
    · simp [ingestLoop, hs]

lemma ingestLoop_append (env : IngestEnv) (u : Nat) (fn pm : String) :
    ∀ (l1 l2 : List Candidate) (acc : IngestAcc),
      ingestLoop env u fn pm (l1 ++ l2) acc =
        ingestLoop env u fn pm l2 (ingestLoop env u fn pm l1 acc) := by
  intro l1
  induction l1 with
  | nil => intro l2 acc; simp [ingestLoop]
  | cons c rest ih =>
    intro l2 acc
    simp only [List.cons_append, ingestLoop]
    rcases hs : acc.err with _ | e
    · cases env.resolve (jsOr c.ippisNumber "IPPIS4536") with
      | found emp =>
        cases hst : env.store c.pdfBuffer with
        | none => exact ih l2 _
        | some msg =>
          rw [ingestLoop_stopped env u fn pm l2 _ (by simp)]
      | notFound => exact ih l2 _
      | threwR msg =>
        rw [ingestLoop_stopped env u fn pm l2 _ (by simp)]
    · rw [ingestLoop_stopped env u fn pm l2 _ (by simp [hs])]

lemma foldl_ingestLoop_join (env : IngestEnv) (u : Nat) (fn pm : String) :
    ∀ (chs : List (List Candidate)) (acc : IngestAcc),
      chs.foldl (fun a ch => ingestLoop env u fn pm ch a) acc =
        ingestLoop env u fn pm chs.flatten acc := by
  intro chs
  induction chs with
  | nil => intro acc; simp [ingestLoop]
  | cons ch chs ih =>
    intro acc
    simp only [List.foldl_cons, List.flatten_cons]
    rw [ingestLoop_append env u fn pm ch chs.flatten acc, ← ih]

/-- The chunked ingest loop computes exactly the flat per-candidate
loop. -/
lemma ingestChunks_eq (env : IngestEnv) (u : Nat) (fn pm : String)
    (cands : List Candidate) (acc : IngestAcc) :
    ingestChunks env u fn pm cands acc = ingestLoop env u fn pm cands acc := by
  unfold ingestChunks
  rw [foldl_ingestLoop_join env, chunkList_join 50 (by omega)]

/-! ### Counting facts about the ingest loop -/

/-! Step equations for the ingest loop. -/

lemma ingestLoop_cons_stop (env : IngestEnv) (u : Nat) (fn pm : String)
    (c : Candidate) (rest : List Candidate) (acc : IngestAcc) (e : String)
    (h : acc.err = some e) :
    ingestLoop env u fn pm (c :: rest) acc = acc := by
  simp [ingestLoop, h]

lemma ingestLoop_cons_threw (env : IngestEnv) (u : Nat) (fn pm : String)
    (c : Candidate) (rest : List Candidate) (acc : IngestAcc) (msg : String)
    (h : acc.err = none)
    (hr : env.resolve (jsOr c.ippisNumber "IPPIS4536") = .threwR msg) :
    ingestLoop env u fn pm (c :: rest) acc = { acc with err := some msg } := by
  simp [ingestLoop, h, hr]

lemma ingestLoop_cons_notFound (env : IngestEnv) (u : Nat) (fn pm : String)
    (c : Candidate) (rest : List Candidate) (acc : IngestAcc)
    (h : acc.err = none)
    (hr : env.resolve (jsOr c.ippisNumber "IPPIS4536") = .notFound) :
    ingestLoop env u fn pm (c :: rest) acc =
      ingestLoop env u fn pm rest { acc with failed := acc.failed + 1 } := by
  simp [ingestLoop, h, hr]

lemma ingestLoop_cons_storeErr (env : IngestEnv) (u : Nat) (fn pm : String)
    (c : Candidate) (rest : List Candidate) (acc : IngestAcc)
    (emp : Employee) (msg : String) (h : acc.err = none)
    (hr : env.resolve (jsOr c.ippisNumber "IPPIS4536") = .found emp)
    (hst : env.store c.pdfBuffer = some msg) :
    ingestLoop env u fn pm (c :: rest) acc = { acc with err := some msg } := by
  simp [ingestLoop, h, hr, hst]

lemma ingestLoop_cons_created (env : IngestEnv) (u : Nat) (fn pm : String)
    (c : Candidate) (rest : List Candidate) (acc : IngestAcc)
    (emp : Employee) (h : acc.err = none)
    (hr : env.resolve (jsOr c.ippisNumber "IPPIS4536") = .found emp)
    (hst : env.store c.pdfBuffer = none) :
    ingestLoop env u fn pm (c :: rest) acc =
      ingestLoop env u fn pm rest
        { acc with
          recs := acc.recs ++ [mkPayslip acc.nextId c emp u fn pm]
          processed := acc.processed + 1
          nextId := acc.nextId + 1 } := by
  simp [ingestLoop, h, hr, hst]

/-- The two counters never grow by more than one per candidate. -/
lemma ingestLoop_le (env : IngestEnv) (u : Nat) (fn pm : String) :
    ∀ (l : List Candidate) (acc : IngestAcc),
      (ingestLoop env u fn pm l acc).processed +
          (ingestLoop env u fn pm l acc).failed ≤
        acc.processed + acc.failed + l.length := by
  intro l
  induction l with
  | nil => intro acc; simp [ingestLoop]
  | cons c rest ih =>
    intro acc
    simp only [List.length_cons]
    cases hs : acc.err with
    | some e =>
      rw [ingestLoop_cons_stop env u fn pm c rest acc e hs]
      omega
    | none =>
      cases hr : env.resolve (jsOr c.ippisNumber "IPPIS4536") with
      | threwR msg =>
        rw [ingestLoop_cons_threw env u fn pm c rest acc msg hs hr]
        simp
      | notFound =>
        rw [ingestLoop_cons_notFound env u fn pm c rest acc hs hr]
        have := ih { acc with failed := acc.failed + 1 }
        simp at this
        omega
      | found emp =>
        cases hst : env.store c.pdfBuffer with
        | some msg =>
          rw [ingestLoop_cons_storeErr env u fn pm c rest acc emp msg hs hr hst]
          simp
        | none =>
          rw [ingestLoop_cons_created env u fn pm c rest acc emp hs hr hst]
          have := ih { acc with
            recs := acc.recs ++ [mkPayslip acc.nextId c emp u fn pm]
            processed := acc.processed + 1
            nextId := acc.nextId + 1 }
          simp at this
          omega

/-- A run that ends without a stored error counted every candidate in
exactly one of the two counters. -/
lemma ingestLoop_complete (env : IngestEnv) (u : Nat) (fn pm : String) :
    ∀ (l : List Candidate) (acc : IngestAcc),
      (ingestLoop env u fn pm l acc).err = none →
      (ingestLoop env u fn pm l acc).processed +
          (ingestLoop env u fn pm l acc).failed =
        acc.processed + acc.failed + l.length := by
  intro l
  induction l with
  | nil => intro acc _; simp [ingestLoop]
  | cons c rest ih =>
    intro acc herr
    simp only [List.length_cons]
    cases hs : acc.err with
    | some e =>
      rw [ingestLoop_cons_stop env u fn pm c rest acc e hs] at herr
      rw [hs] at herr
      simp at herr
    | none =>
      cases hr : env.resolve (jsOr c.ippisNumber "IPPIS4536") with
      | threwR msg =>
        rw [ingestLoop_cons_threw env u fn pm c rest acc msg hs hr] at herr
        simp at herr
      | notFound =>
        rw [ingestLoop_cons_notFound env u fn pm c rest acc hs hr] at herr ⊢
        have := ih { acc with failed := acc.failed + 1 } herr
        simp at this
        omega
      | found emp =>
        cases hst : env.store c.pdfBuffer with
        | some msg =>
          rw [ingestLoop_cons_storeErr env u fn pm c rest acc emp msg hs hr hst]
            at herr
          simp at herr
        | none =>
          rw [ingestLoop_cons_created env u fn pm c rest acc emp hs hr hst]
            at herr ⊢
          have := ih { acc with
            recs := acc.recs ++ [mkPayslip acc.nextId c emp u fn pm]
            processed := acc.processed + 1
            nextId := acc.nextId + 1 } herr
          simp at this
          omega

/-! ### Store-update helpers -/

/-- Membership in the batch table after a Prisma batch update. -/
lemma updateBatch_mem (st : SysState) (i : Nat)
    (f : PayslipUpload → PayslipUpload) (u : PayslipUpload)
    (h : u ∈ (updateBatch st i f).batches) :
    ∃ v ∈ st.batches, u = if v.id = i then f v else v := by
  simp only [updateBatch, List.mem_map] at h
  rcases h with ⟨v, hv, he⟩
  exact ⟨v, hv, he.symm⟩

/-- A found batch satisfies the fetch filter. -/
lemma findBatch_spec (st : SysState) (i : Nat) (b : PayslipUpload)
    (h : findBatch st i = some b) :
    b ∈ st.batches ∧ b.id = i ∧ b.deletedAt = none := by
  have hm := List.mem_of_find?_eq_some h
  have hp := List.find?_some h
  simp only [Bool.and_eq_true, beq_iff_eq, Option.isNone_iff_eq_none] at hp
  exact ⟨hm, hp.1, hp.2⟩

lemma deepZip_depth : ∀ n : Nat, nestDepth (deepZip n) = n := by
  intro n
  induction n with
  | zero => simp [deepZip, nestDepth]
  | succ n ih =>
    have h1 : isPdfName "b.zip" = false := by decide
    have h2 : isZipName "b.zip" = true := by decide
    simp [deepZip, nestDepth, h1, h2, ih]
    omega

lemma deepZip_extract :
    ∀ n : Nat, extractPdfsFromZip (deepZip n) = .ok [(deepName n, 1)] := by
  intro n
  induction n with
  | zero =>
    have h0 : isPdfName "a.pdf" = true := by decide
    have h3 : pathBasename "a.pdf" = "a.pdf" := by decide
    simp [deepZip, extractPdfsFromZip, h0, h3, deepName]
  | succ n ih =>
    have h1 : isPdfName "b.zip" = false := by decide
    have h2 : isZipName "b.zip" = true := by decide
    have h3 : pathBasename "b.zip" = "b.zip" := by decide
    simp [deepZip, extractPdfsFromZip, h1, h2, h3, ih, deepName]

/-! ### The send loop preserves ids and the record invariant -/

lemma updatePayslip_map_id (db : List Payslip) (i : Nat)
    (f : Payslip → Payslip) (hf : ∀ p, (f p).id = p.id) :
    (updatePayslip db i f).map (fun p => p.id) = db.map (fun p => p.id) := by
  unfold updatePayslip
  rw [List.map_map]
  apply List.map_congr_left
  intro p _
  by_cases h : p.id = i <;> simp [h, hf]

lemma sendLoop_map_id (env : SendEnv) :
    ∀ (sel db : List Payslip) (c : SendCounts),
      ((sendLoop env sel db c).1).map (fun p => p.id) =
        db.map (fun p => p.id) := by
  intro sel
  induction sel with
  | nil => intro db c; simp [sendLoop]
  | cons p rest ih =>
    intro db c
    simp only [sendLoop]
    split
    · exact ih db _
    · cases env.notify p.id with
      | delivered => rw [ih]; exact updatePayslip_map_id db p.id _ (by intro q; rfl)
      | returnedFalse => rw [ih]; exact updatePayslip_map_id db p.id _ (by intro q; rfl)
      | threw msg => rw [ih]; exact updatePayslip_map_id db p.id _ (by intro q; rfl)

/-- A record that passes the pre-send re-check under the record invariant
is unsent. -/
lemma notCheck_not_sent (p : Payslip) (hp : RecordInv p)
    (hc : alreadySentCheck p = false) : p.emailSent = false := by
  by_contra h
  have hsent : p.emailSent = true := by
    cases hq : p.emailSent
    · exact absurd hq h
    · rfl
  rcases hp hsent with ⟨hAt, hErr⟩
  unfold alreadySentCheck at hc
  rw [hsent, hAt, hErr] at hc
  simp [strTruthy] at hc

lemma sendLoop_inv (env : SendEnv) :
    ∀ (sel db : List Payslip) (c : SendCounts),
      (∀ q ∈ db, RecordInv q) →
      (∀ p ∈ sel, RecordInv p) →
      (∀ p ∈ sel, ∀ q ∈ db, q.id = p.id → q = p) →
      (sel.map (fun p => p.id)).Nodup →
      ∀ q ∈ (sendLoop env sel db c).1, RecordInv q := by
  intro sel
  induction sel with
  | nil => intro db c hdb _ _ _ q hq; exact hdb q hq
  | cons p rest ih =>
    intro db c hdb hsel hag hnd
    have hndRest : (rest.map (fun p => p.id)).Nodup := by
      simp only [List.map_cons, List.nodup_cons] at hnd
      exact hnd.2
    have hpNotRest : p.id ∉ rest.map (fun p => p.id) := by
      simp only [List.map_cons, List.nodup_cons] at hnd
      exact hnd.1
    have hselRest : ∀ q ∈ rest, RecordInv q :=
      fun q hq => hsel q (List.mem_cons_of_mem p hq)
    have hmain : ∀ (f : Payslip → Payslip) (c' : SendCounts),
        (∀ q, (f q).id = q.id) →
        (∀ q ∈ db, q.id = p.id → RecordInv (f q)) →
        ∀ q ∈ (sendLoop env rest (updatePayslip db p.id f) c').1,
          RecordInv q := by
      intro f c' hid hf
      apply ih (updatePayslip db p.id f) c'
      · intro q hq
        simp only [updatePayslip, List.mem_map] at hq
        rcases hq with ⟨q0, hq0, he⟩
        by_cases h0 : q0.id = p.id
        · rw [← he]; simp only [h0, if_pos rfl]
          exact hf q0 hq0 h0
        · rw [← he]; simp only [if_neg h0]
          exact hdb q0 hq0
      · exact hselRest
      · intro p' hp' q hq hqid
        simp only [updatePayslip, List.mem_map] at hq
        rcases hq with ⟨q0, hq0, he⟩
        by_cases h0 : q0.id = p.id
        · exfalso
          have h1 : q.id = p.id := by
            rw [← he, if_pos h0, hid]; exact h0
          have hp'id : p'.id = p.id := by rw [← hqid, h1]
          exact hpNotRest (hp'id ▸ List.mem_map_of_mem (fun r => r.id) hp')
        · have h2 : q = q0 := by rw [← he, if_neg h0]
          rw [h2]
          exact hag p' (List.mem_cons_of_mem p hp') q0 hq0
            (by rw [← h2]; exact hqid)
      · exact hndRest
    simp only [sendLoop]
    cases hchk : alreadySentCheck p with
    | true =>
      simp only [if_pos rfl]
      exact ih db _ hdb hselRest
        (fun p' hp' q hq => hag p' (List.mem_cons_of_mem p hp') q hq) hndRest
    | false =>
      rw [if_neg Bool.false_ne_true]
      have hpSentFalse : p.emailSent = false :=
        notCheck_not_sent p (hsel p (List.mem_cons_self p rest)) hchk
      cases env.notify p.id with
      | delivered =>
        exact hmain
          (fun q => { q with emailSent := true, emailSentAt := some env.now,
                             emailError := none })
          { c with success := c.success + 1 } (fun q => rfl)
          (fun q _ _ _ => ⟨rfl, rfl⟩)
      | returnedFalse =>
        exact hmain
          (fun q => { q with emailError := some "Failed to send email" })
          { c with failure := c.failure + 1 } (fun q => rfl)
          (by
            intro q hq hqid hq1
            exfalso
            have hqp : q = p := hag p (List.mem_cons_self p rest) q hq hqid
            rw [hqp] at hq1
            have h3 : p.emailSent = true := hq1
            rw [hpSentFalse] at h3
            exact Bool.false_ne_true h3)
      | threw msg =>
        exact hmain
          (fun q => { q with emailError := some msg })
          { c with failure := c.failure + 1 } (fun q => rfl)
          (by
            intro q hq hqid hq1
            exfalso
            have hqp : q = p := hag p (List.mem_cons_self p rest) q hq hqid
            rw [hqp] at hq1
            have h3 : p.emailSent = true := hq1
            rw [hpSentFalse] at h3
            exact Bool.false_ne_true h3)

/-! ### Rows created by the ingest loop -/

lemma ingestLoop_recs (env : IngestEnv) (u : Nat) (fn pm : String) :
    ∀ (l : List Candidate) (acc : IngestAcc),
      ∃ new : List Payslip,
        (ingestLoop env u fn pm l acc).recs = acc.recs ++ new ∧
        acc.nextId ≤ (ingestLoop env u fn pm l acc).nextId ∧
        (∀ r ∈ new,
          r.emailSent = false ∧ r.emailSentAt = none ∧ r.emailError = none ∧
          acc.nextId ≤ r.id ∧ r.id < (ingestLoop env u fn pm l acc).nextId) ∧
        (new.map (fun p => p.id)).Nodup := by
  intro l
  induction l with
  | nil =>
    intro acc
    exact ⟨[], by simp [ingestLoop], Nat.le_refl _, by simp, by simp⟩
  | cons c rest ih =>
    intro acc
    cases hs : acc.err with
    | some e =>
      rw [ingestLoop_cons_stop env u fn pm c rest acc e hs]
      exact ⟨[], by simp, Nat.le_refl _, by simp, by simp⟩
    | none =>
      cases hr : env.resolve (jsOr c.ippisNumber "IPPIS4536") with
      | threwR msg =>
        rw [ingestLoop_cons_threw env u fn pm c rest acc msg hs hr]
        exact ⟨[], by simp, Nat.le_refl _, by simp, by simp⟩
      | notFound =>
        rw [ingestLoop_cons_notFound env u fn pm c rest acc hs hr]
        exact ih { acc with failed := acc.failed + 1 }
      | found emp =>
        cases hst : env.store c.pdfBuffer with
        | some msg =>
          rw [ingestLoop_cons_storeErr env u fn pm c rest acc emp msg hs hr hst]
          exact ⟨[], by simp, Nat.le_refl _, by simp, by simp⟩
        | none =>
          rw [ingestLoop_cons_created env u fn pm c rest acc emp hs hr hst]
          obtain ⟨new, h1, h2, h3, h4⟩ := ih { acc with
            recs := acc.recs ++ [mkPayslip acc.nextId c emp u fn pm]
            processed := acc.processed + 1
            nextId := acc.nextId + 1 }
          simp only [] at h1 h2 h3 h4
          refine ⟨mkPayslip acc.nextId c emp u fn pm :: new, ?_, ?_, ?_, ?_⟩
          · rw [h1, List.append_assoc, List.singleton_append]
          · omega
          · intro r hr'
            rcases List.mem_cons.mp hr' with he | hm
            · subst he
              refine ⟨rfl, rfl, rfl, Nat.le_refl _, ?_⟩
              have hidm : (mkPayslip acc.nextId c emp u fn pm).id =
                acc.nextId := rfl
              omega
            · rcases h3 r hm with ⟨e1, e2, e3, e4, e5⟩
              exact ⟨e1, e2, e3, by omega, e5⟩
          · rw [List.map_cons, List.nodup_cons]
            refine ⟨?_, h4⟩
            intro hmem
            rcases List.mem_map.mp hmem with ⟨r, hrm, hre⟩
            rcases h3 r hrm with ⟨_, _, _, e4, _⟩
            have : (mkPayslip acc.nextId c emp u fn pm).id = acc.nextId := rfl
            omega

/-! ### Each pipeline operation preserves the store invariant -/

lemma sendChunks_db_inv (env : SendEnv) (db : List Payslip) (bid : Nat)
    (hnd : (db.map (fun p => p.id)).Nodup)
    (hdb : ∀ q ∈ db, RecordInv q) :
    ((sendChunks env (selectForSend db bid) db).1).map (fun p => p.id) =
        db.map (fun p => p.id) ∧
      ∀ q ∈ (sendChunks env (selectForSend db bid) db).1, RecordInv q := by
  rw [sendChunks_eq]
  constructor
  · exact sendLoop_map_id env _ db _
  · apply sendLoop_inv env (selectForSend db bid) db ⟨0, 0, 0⟩ hdb
    · intro p hp
      exact hdb p (List.mem_of_mem_filter hp)
    · intro p hp q hq hqid
      exact List.inj_on_of_nodup_map hnd hq (List.mem_of_mem_filter hp) hqid
    · have hsub : List.Sublist (selectForSend db bid) db :=
        List.filter_sublist db
      exact hnd.sublist (hsub.map (fun p => p.id))

lemma afterSend_inv (st : SysState) (db' : List Payslip)
    (hids : db'.map (fun p => p.id) = st.payslips.map (fun p => p.id))
    (hinv' : ∀ q ∈ db', RecordInv q) (h : SysInv st) (bs : List PayslipUpload)
    : SysInv { batches := bs, payslips := db',
               nextPayslipId := st.nextPayslipId } := by
  obtain ⟨hnd, hbound, _⟩ := h
  refine ⟨?_, ?_, fun p hp => hinv' p hp⟩
  · show (db'.map (fun p => p.id)).Nodup
    rw [hids]; exact hnd
  · intro p hp
    have : p.id ∈ st.payslips.map (fun q => q.id) := by
      rw [← hids]; exact List.mem_map_of_mem _ hp
    rcases List.mem_map.mp this with ⟨q, hq, hqe⟩
    rw [← hqe]
    exact hbound q hq

lemma processPayslipSend_inv (env : SendEnv) (st : SysState) (bid : Nat)
    (h : SysInv st) : SysInv (processPayslipSend env st bid).1 := by
  unfold processPayslipSend
  cases hfb : findBatch st bid with
  | none => exact h
  | some b =>
    simp only []
    split
    · exact h
    · obtain ⟨hids, hinv'⟩ := sendChunks_db_inv env st.payslips b.id h.1 h.2.2
      exact afterSend_inv st _ hids hinv' h _

lemma sendBatch_inv (env : SendEnv) (st : SysState) (bid : Nat)
    (h : SysInv st) : SysInv (sendBatch env st bid).1 := by
  unfold sendBatch
  cases hfb : findBatch st bid with
  | none => exact h
  | some b =>
    simp only []
    split
    · split
      · exact h
      · obtain ⟨hids, hinv'⟩ := sendChunks_db_inv env st.payslips b.id h.1 h.2.2
        exact afterSend_inv st _ hids hinv' h _
    · exact h

lemma afterIngest_inv (st : SysState) (new : List Payslip) (nid : Nat)
    (h : SysInv st) (hge : st.nextPayslipId ≤ nid)
    (hnew : ∀ r ∈ new,
      r.emailSent = false ∧ st.nextPayslipId ≤ r.id ∧ r.id < nid)
    (hnd4 : (new.map (fun p => p.id)).Nodup) :
    ∀ X : SysState, X.payslips = st.payslips ++ new → X.nextPayslipId = nid →
      SysInv X := by
  obtain ⟨hnd, hbound, hinv⟩ := h
  intro X hpay hnid
  refine ⟨?_, ?_, ?_⟩
  · rw [hpay, List.map_append, List.nodup_append]
    refine ⟨hnd, hnd4, ?_⟩
    intro a ha hb
    rcases List.mem_map.mp ha with ⟨q, hq, hqe⟩
    rcases List.mem_map.mp hb with ⟨r, hrm, hre⟩
    have hql : q.id < st.nextPayslipId := hbound q hq
    rcases hnew r hrm with ⟨_, e4, _⟩
    omega
  · intro p hp
    rw [hpay] at hp
    rw [hnid]
    rcases List.mem_append.mp hp with hl | hr'
    · have h1 := hbound p hl
      omega
    · rcases hnew p hr' with ⟨_, _, e5⟩
      exact e5
  · intro p hp
    rw [hpay] at hp
    rcases List.mem_append.mp hp with hl | hr'
    · exact hinv p hl
    · rcases hnew p hr' with ⟨e1, _, _⟩
      intro hsently
      rw [e1] at hsently
      exact absurd hsently (by simp)

lemma processPayslipUpload_inv (env : IngestEnv) (st : SysState)
    (job : UploadJob) (h : SysInv st) :
    SysInv (processPayslipUpload env st job).1 := by
  unfold processPayslipUpload
  cases hfb : findBatch st job.uploadId with
  | none => exact h
  | some b =>
    simp only []
    cases hex : extractCandidates env.docOf job.fileName job.input with
    | error e => exact h
    | ok cands =>
      simp only []
      obtain ⟨new, h1, h2, h3, h4⟩ := by
        have := ingestLoop_recs env job.uploadId job.fileName job.payMonth
          cands ⟨[], 0, 0, st.nextPayslipId, none⟩
        rw [← ingestChunks_eq] at this
        exact this
      simp only [List.nil_append] at h1 h2 h3
      have hafter := afterIngest_inv st new
        (ingestChunks env job.uploadId job.fileName job.payMonth cands
          ⟨[], 0, 0, st.nextPayslipId, none⟩).nextId h h2
        (fun r hr' => by
          rcases h3 r hr' with ⟨e1, _, _, e4, e5⟩
          exact ⟨e1, e4, e5⟩) h4
      cases (ingestChunks env job.uploadId job.fileName job.payMonth cands
          ⟨[], 0, 0, st.nextPayslipId, none⟩).err with
      | some e => exact hafter _ (by rw [← h1]; rfl) rfl
      | none => exact hafter _ (by rw [← h1]; rfl) rfl

lemma applyOp_inv (st : SysState) (op : Op) (h : SysInv st) :
    SysInv (applyOp st op) := by
  cases op with
  | ingestOp env job => exact processPayslipUpload_inv env st job h
  | sendJobOp env bid => exact processPayslipSend_inv env st bid h
  | sendBatchOp env bid => exact sendBatch_inv env st bid h

lemma applyOps_inv (ops : List Op) :
    ∀ (st : SysState), SysInv st → SysInv (applyOps st ops) := by
  induction ops with
  | nil => intro st h; exact h
  | cons op ops ih =>
    intro st h
    exact ih (applyOp st op) (applyOp_inv st op h)

/-! ### Delivery-state helpers -/

lemma deliveryState_sent_emailSent (p : Payslip)
    (h : deliveryState p = .sent) : p.emailSent = true := by
  cases hq : p.emailSent with
  | true => rfl
  | false =>
    exfalso
    unfold deliveryState at h
    rw [hq] at h
    simp only [Bool.false_eq_true, if_false] at h
    cases hE : p.emailError.isSome <;> rw [hE] at h <;> simp at h

lemma deliveryState_sendFailed_err (p : Payslip)
    (h : deliveryState p = .sendFailed) : p.emailError ≠ none := by
  unfold deliveryState at h
  cases hq : p.emailSent <;> rw [hq] at h
  · simp only [Bool.false_eq_true, if_false] at h
    cases hE : p.emailError.isSome <;> rw [hE] at h
    · simp at h
    · exact Option.ne_none_iff_isSome.mpr hE
  · simp at h

lemma selectClause_iff (p : Payslip) (hp : RecordInv p) :
    (p.emailSent = false ∨ p.emailError.isSome = true) ↔
      (deliveryState p = .notSent ∨ deliveryState p = .sendFailed) := by
  cases hq : p.emailSent with
  | false =>
    constructor
    · intro _
      unfold deliveryState
      rw [hq]
      simp only [Bool.false_eq_true, if_false]
      cases hE : p.emailError.isSome <;> simp [hE]
    · intro _
      left
      rfl
  | true =>
    rcases hp hq with ⟨hAt, hErr⟩
    constructor
    · intro hl
      rcases hl with h | h
      · simp at h
      · rw [hErr] at h; simp at h
    · intro hr
      exfalso
      unfold deliveryState at hr
      rw [hq] at hr
      rcases hr with h | h <;> simp at h

/-! ## Claim theorems -/

/-- C10: `EmailService.sendPayslip` is total — for every transport
outcome it returns a boolean inside `.ok` (never an uncaught exception):
a resolved send yields `true` and any thrown transport error is caught
and yields `false`, so a per-record notifier failure cannot abort the
distribution loop via an exception. -/
theorem c10_sendPayslip_total :
    ∀ t : Except String Unit,
      (∃ b : Bool, sendPayslip t = .ok b) ∧
      sendPayslip (.ok ()) = .ok true ∧
      ∀ e : String, sendPayslip (.error e) = .ok false := by
  intro t
  refine ⟨?_, rfl, fun e => rfl⟩
  cases t with
  | ok u => exact ⟨true, rfl⟩
  | error e => exact ⟨false, rfl⟩

/-- C9 counterexample: the recursive ZIP unpacking of
`PdfService.extractPdfsFromZip` is *not* bounded in nesting depth, nor in
aggregate decompressed size: for every candidate bound there is an
archive whose recursion depth (resp. extracted byte total) exceeds it, so
the claim that the code bounds both quantities is false. -/
theorem c9_counterexample :
    (¬ ∃ D : Nat, ∀ es : List ZipEntry, nestDepth es ≤ D) ∧
    (¬ ∃ S : Nat, ∀ es : List ZipEntry, aggSize es ≤ S) := by
  constructor
  · rintro ⟨D, h⟩
    have hd := h (deepZip (D + 1))
    rw [deepZip_depth] at hd
    omega
  · rintro ⟨S, h⟩
    have hs := h [ZipEntry.docE "a.pdf" (S + 1)]
    have : aggSize [ZipEntry.docE "a.pdf" (S + 1)] = S + 1 := by
      have hpdf : isPdfName "a.pdf" = true := by decide
      simp [aggSize, hpdf]
    omega

/-- C9 (amended): recursive unpacking terminates on every finite archive
in the model (each recursive call descends into a structurally smaller
nested archive), but the code imposes no bound on nesting depth or
aggregate decompressed size: it successfully extracts archives of every
nesting depth `n`, tagging the document with the `n`-fold composite
`parent::child` path, and the recursion depth equals the input's nesting
depth. -/
theorem c9_unbounded_but_terminating :
    ∀ n : Nat,
      extractPdfsFromZip (deepZip n) = .ok [(deepName n, 1)] ∧
      nestDepth (deepZip n) = n := by
  intro n
  exact ⟨deepZip_extract n, deepZip_depth n⟩

/-- C6 counterexample: a parseable document whose identifier extraction
yields null is dropped by `splitBulkPdf`'s filter before resolution: the
ingest run of such a document reports zero failed candidates and a zero
total (not a per-row failure), persists nothing, and never invokes the
recipient resolver — the run is bit-for-bit identical whether the
resolver would have failed or succeeded, so the candidate does not
"proceed through resolution using the fallback sentinel". -/
theorem c6_counterexample :
    extractIppisFromPdf docNoMatch = .ok none ∧
    splitBulkPdf docNoMatch = .ok [] ∧
    (processPayslipUpload envNoRes stIngest jobNoMatch).2 =
      .ok { uploadId := 1, processedFiles := 0, failedFiles := 0,
            totalFiles := 0 } ∧
    (processPayslipUpload envNoRes stIngest jobNoMatch).1.payslips = [] ∧
    processPayslipUpload envNoRes stIngest jobNoMatch =
      processPayslipUpload envAllRes stIngest jobNoMatch := by
  exact ⟨rfl, rfl, rfl, rfl, rfl⟩

/-- C6 (amended): extraction yielding null raises no hard error, but the
splitter filters the candidate out before resolution — it is not passed
to the resolver, not counted in the batch's failed counter or total, and
the batch is not aborted; the `'IPPIS4536'` fallback sentinel in the
ingest loop is unreachable because every candidate the splitter emits has
a non-null identifier. -/
theorem c6_null_filtered_out (d : PdfDoc) (hp : d.parseOk = true)
    (hm : d.ippisMatch = none) (fn : String) (hfn : isZipName fn = false)
    (docOf : Nat → PdfDoc) :
    extractIppisFromPdf d = .ok none ∧
    splitBulkPdf d = .ok [] ∧
    extractCandidates docOf fn (.singleDoc d) = .ok [] ∧
    (∀ (d' : PdfDoc) (l : List Candidate),
      splitBulkPdf d' = .ok l → ∀ c ∈ l, c.ippisNumber ≠ none) := by
  refine ⟨?_, ?_, ?_, ?_⟩
  · simp [extractIppisFromPdf, hp, hm]
  · simp [splitBulkPdf, hp, hm]
  · simp [extractCandidates, hfn, splitBulkPdf, hp, hm]
  · intro d' l h c hc
    unfold splitBulkPdf at h
    cases hpok : d'.parseOk <;> rw [hpok] at h
    · exact absurd h (by simp)
    · have h2 : List.filter (fun r => decide (r.ippisNumber ≠ none))
          [⟨d'.ippisMatch, d'.bytes⟩] = l := by simpa using h
      rw [← h2] at hc
      have := List.of_mem_filter hc
      simpa using this

/-- C6 witness for the amended theorem at a concrete document and
filename. -/
theorem c6_null_filtered_out_witness :
    (docNoMatch.parseOk = true ∧ docNoMatch.ippisMatch = none ∧
      isZipName "a.pdf" = false) ∧
    (extractIppisFromPdf docNoMatch = .ok none ∧
     splitBulkPdf docNoMatch = .ok [] ∧
     extractCandidates (fun _ => docNoMatch) "a.pdf"
       (.singleDoc docNoMatch) = .ok [] ∧
     (∀ (d' : PdfDoc) (l : List Candidate),
       splitBulkPdf d' = .ok l → ∀ c ∈ l, c.ippisNumber ≠ none)) :=
  ⟨⟨rfl, rfl, by decide⟩,
   c6_null_filtered_out docNoMatch rfl rfl "a.pdf" (by decide)
     (fun _ => docNoMatch)⟩

/-- C2: a distribution run's selection picks exactly the live records of
the batch whose delivery state is not-sent or send-failed; a record in
the sent state is never selected; and a selected record that the
per-record re-check finds already sent is counted as skipped — the loop
writes nothing for it and continues without invoking the notifier. -/
theorem c2_selection_and_skip (db : List Payslip) (bid : Nat)
    (hinv : ∀ q ∈ db, RecordInv q) :
    (∀ p ∈ db,
      (p ∈ selectForSend db bid ↔
        (p.uploadId = bid ∧ p.deletedAt = none ∧
          (deliveryState p = .notSent ∨ deliveryState p = .sendFailed)))) ∧
    (∀ p ∈ db, deliveryState p = .sent → p ∉ selectForSend db bid) ∧
    (∀ (env : SendEnv) (p : Payslip) (rest db' : List Payslip)
        (c : SendCounts), alreadySentCheck p = true →
      sendLoop env (p :: rest) db' c =
        sendLoop env rest db' { c with skipped := c.skipped + 1 }) := by
  have hiff : ∀ p ∈ db,
      (p ∈ selectForSend db bid ↔
        (p.uploadId = bid ∧ p.deletedAt = none ∧
          (deliveryState p = .notSent ∨ deliveryState p = .sendFailed))) := by
    intro p hp
    unfold selectForSend
    rw [List.mem_filter]
    constructor
    · rintro ⟨-, hpred⟩
      simp only [Bool.and_eq_true, Bool.or_eq_true, beq_iff_eq,
        Option.isNone_iff_eq_none, Bool.not_eq_true'] at hpred
      rcases hpred with ⟨⟨h1, h2⟩, h3⟩
      exact ⟨h1, h2, (selectClause_iff p (hinv p hp)).mp h3⟩
    · rintro ⟨h1, h2, h3⟩
      refine ⟨hp, ?_⟩
      simp only [Bool.and_eq_true, Bool.or_eq_true, beq_iff_eq,
        Option.isNone_iff_eq_none, Bool.not_eq_true']
      exact ⟨⟨h1, h2⟩, (selectClause_iff p (hinv p hp)).mpr h3⟩
  refine ⟨hiff, ?_, ?_⟩
  · intro p hp hsent hmem
    rcases (hiff p hp).mp hmem with ⟨-, -, h3 | h3⟩ <;>
      rw [hsent] at h3 <;> exact absurd h3 (by simp)
  · intro env p rest db' c hchk
    simp [sendLoop, hchk]

/-- C2 witness: a store with one not-sent, one sent and one send-failed
record; the invariant hypothesis holds by computation. -/
theorem c2_selection_and_skip_witness :
    (∀ q ∈ [recUnsent, recSent, recFailed], RecordInv q) ∧
    ((∀ p ∈ [recUnsent, recSent, recFailed],
      (p ∈ selectForSend [recUnsent, recSent, recFailed] 1 ↔
        (p.uploadId = 1 ∧ p.deletedAt = none ∧
          (deliveryState p = .notSent ∨ deliveryState p = .sendFailed)))) ∧
    (∀ p ∈ [recUnsent, recSent, recFailed], deliveryState p = .sent →
      p ∉ selectForSend [recUnsent, recSent, recFailed] 1) ∧
    (∀ (env : SendEnv) (p : Payslip) (rest db' : List Payslip)
        (c : SendCounts), alreadySentCheck p = true →
      sendLoop env (p :: rest) db' c =
        sendLoop env rest db' { c with skipped := c.skipped + 1 })) :=
  ⟨by decide, c2_selection_and_skip [recUnsent, recSent, recFailed] 1
    (by decide)⟩

/-- C1 counterexample: a batch whose distribution run is in progress
(`status: 'processed'`, `emailStatus: 'sending'`) is *not* rejected by a
second `sendBatch` request — the precondition only inspects `status`, so
the second request passes it, a second send run executes, and the record
is sent by it. -/
theorem c1_counterexample :
    batchDistributing.emailStatus = "sending" ∧
    (sendBatch envDeliver stDistributing 1).2 =
      .ok { totalPayslips := 1, successCount := 1, failureCount := 0,
            skippedCount := some 0, emailStatus := "completed",
            message := none, sentAt := some 10, completedAt := some 10 } ∧
    (∀ u ∈ (sendBatch envDeliver stDistributing 1).1.payslips,
      u.emailSent = true) := by
  exact ⟨rfl, rfl, by decide⟩

/-- C1 (amended): a distribution request for a fetched batch is rejected
(with the explicit status error, leaving the store untouched) exactly
when the batch's `status` differs from `'processed'`; the `emailStatus`
field is never consulted, so a request for a batch whose run is in
progress (`status` still `'processed'`, `emailStatus: 'sending'`) is
accepted and a second send run starts concurrently. -/
theorem c1_reject_only_nonprocessed (env : SendEnv) (st : SysState)
    (bid : Nat) (b : PayslipUpload) (hb : findBatch st bid = some b) :
    (b.status ≠ "processed" →
      (sendBatch env st bid).2 =
        .error ("Batch status is \"" ++ b.status ++
          "\". Only \"processed\" batches can be sent.") ∧
      (sendBatch env st bid).1 = st) ∧
    (b.status = "processed" → ∃ r, (sendBatch env st bid).2 = .ok r) := by
  constructor
  · intro hne
    unfold sendBatch
    rw [hb]
    dsimp only
    rw [if_neg hne]
    exact ⟨rfl, rfl⟩
  · intro heq
    unfold sendBatch
    rw [hb]
    dsimp only
    rw [if_pos heq]
    by_cases hsel : (selectForSend st.payslips b.id).isEmpty = true
    · rw [if_pos hsel]
      exact ⟨_, rfl⟩
    · rw [if_neg hsel]
      exact ⟨_, rfl⟩

/-- C1 witness for the amended theorem: a batch that already completed is
rejected on `status`, and the in-progress batch is accepted. -/
theorem c1_reject_only_nonprocessed_witness :
    findBatch stAllSent 1 = some batchDone ∧
    ((batchDone.status ≠ "processed" →
      (sendBatch envDeliver stAllSent 1).2 =
        .error ("Batch status is \"" ++ batchDone.status ++
          "\". Only \"processed\" batches can be sent.") ∧
      (sendBatch envDeliver stAllSent 1).1 = stAllSent) ∧
    (batchDone.status = "processed" →
      ∃ r, (sendBatch envDeliver stAllSent 1).2 = .ok r)) :=
  ⟨rfl, c1_reject_only_nonprocessed envDeliver stAllSent 1 batchDone rfl⟩

/-- C3: a queued distribution run over a batch whose selection of
outstanding records is empty finalizes immediately as fully-sent
(`status`/`emailStatus: 'completed'` and a completion timestamp on the
batch), returns zero success/failure/skip counts with the
"All payslips already sent" note, and leaves every payslip row
untouched. -/
theorem c3_empty_selection (env : SendEnv) (st : SysState) (bid : Nat)
    (b : PayslipUpload) (hb : findBatch st bid = some b)
    (hsel : selectForSend st.payslips b.id = []) :
    (processPayslipSend env st bid).2 =
      .ok { totalPayslips := 0, successCount := 0, failureCount := 0,
            skippedCount := 0, emailStatus := "completed",
            message := some "All payslips already sent" } ∧
    (processPayslipSend env st bid).1.payslips = st.payslips ∧
    (∀ u ∈ (processPayslipSend env st bid).1.batches, u.id = b.id →
      u.status = "completed" ∧ u.emailStatus = "completed" ∧
        u.completedAt = some env.now) := by
  have hrun : processPayslipSend env st bid =
      (updateBatch st b.id (fun u =>
        { u with status := "completed", emailStatus := "completed",
                 completedAt := some env.now }),
       .ok { totalPayslips := 0, successCount := 0, failureCount := 0,
             skippedCount := 0, emailStatus := "completed",
             message := some "All payslips already sent" }) := by
    unfold processPayslipSend
    rw [hb]
    dsimp only
    rw [hsel]
    rfl
  rw [hrun]
  refine ⟨rfl, rfl, ?_⟩
  intro u hu huid
  rcases updateBatch_mem _ _ _ u hu with ⟨v, hv, he⟩
  by_cases h0 : v.id = b.id
  · rw [he, if_pos h0]
    exact ⟨rfl, rfl, rfl⟩
  · exfalso
    rw [he, if_neg h0] at huid
    exact h0 huid

/-- C3 witness: a batch whose single record is already sent. -/
theorem c3_empty_selection_witness :
    (findBatch stAllSent 1 = some batchDone ∧
      selectForSend stAllSent.payslips batchDone.id = []) ∧
    ((processPayslipSend envDeliver stAllSent 1).2 =
      .ok { totalPayslips := 0, successCount := 0, failureCount := 0,
            skippedCount := 0, emailStatus := "completed",
            message := some "All payslips already sent" } ∧
    (processPayslipSend envDeliver stAllSent 1).1.payslips =
      stAllSent.payslips ∧
    (∀ u ∈ (processPayslipSend envDeliver stAllSent 1).1.batches,
      u.id = batchDone.id →
      u.status = "completed" ∧ u.emailStatus = "completed" ∧
        u.completedAt = some 10)) :=
  ⟨⟨rfl, by decide⟩,
   c3_empty_selection envDeliver stAllSent 1 batchDone rfl (by decide)⟩

/-- C7 counterexample: the skip count of a distribution run is *not*
persisted on the batch — two runs with different skip counts (1 and 0)
leave bit-for-bit identical batch tables, so the persisted batch does not
record the skip count; only the run's returned result carries it. -/
theorem c7_counterexample :
    (processPayslipSend envDeliver stSkipPair 1).2 =
      .ok { totalPayslips := 2, successCount := 1, failureCount := 0,
            skippedCount := 1, emailStatus := "completed",
            message := none } ∧
    (processPayslipSend envDeliver stNoSkip 1).2 =
      .ok { totalPayslips := 1, successCount := 1, failureCount := 0,
            skippedCount := 0, emailStatus := "completed",
            message := none } ∧
    (processPayslipSend envDeliver stSkipPair 1).1.batches =
      (processPayslipSend envDeliver stNoSkip 1).1.batches := by
  exact ⟨rfl, rfl, rfl⟩

/-- C7 (amended): after a run over a non-empty selection, the aggregate
outcome is `'completed'` (fully-sent) when no send failed, `'partial'`
when there were both successes and failures, and `'failed'` when at least
one send was attempted and none succeeded; the final success and failure
counts and a completion timestamp are persisted on the batch, while the
skip count is only returned in the job result, the schema having no
column for it. -/
theorem c7_aggregate_outcome (env : SendEnv) (st : SysState) (bid : Nat)
    (b : PayslipUpload) (hb : findBatch st bid = some b)
    (hne : selectForSend st.payslips b.id ≠ []) :
    (processPayslipSend env st bid).2 =
      .ok { totalPayslips := (selectForSend st.payslips b.id).length,
            successCount :=
              (sendChunks env (selectForSend st.payslips b.id)
                st.payslips).2.success,
            failureCount :=
              (sendChunks env (selectForSend st.payslips b.id)
                st.payslips).2.failure,
            skippedCount :=
              (sendChunks env (selectForSend st.payslips b.id)
                st.payslips).2.skipped,
            emailStatus :=
              finalEmailStatus
                (sendChunks env (selectForSend st.payslips b.id)
                  st.payslips).2,
            message := none } ∧
    (∀ c : SendCounts,
      (c.failure = 0 → finalEmailStatus c = "completed") ∧
      (c.failure > 0 → c.success > 0 → finalEmailStatus c = "partial") ∧
      (c.failure > 0 → c.success = 0 → finalEmailStatus c = "failed")) ∧
    (∀ u ∈ (processPayslipSend env st bid).1.batches, u.id = b.id →
      u.status = "completed" ∧
      u.emailStatus =
        finalEmailStatus
          (sendChunks env (selectForSend st.payslips b.id) st.payslips).2 ∧
      u.successCount =
        (sendChunks env (selectForSend st.payslips b.id)
          st.payslips).2.success ∧
      u.failureCount =
        (sendChunks env (selectForSend st.payslips b.id)
          st.payslips).2.failure ∧
      u.completedAt = some env.now) := by
  have hselne : ((selectForSend st.payslips b.id).isEmpty = true) = False := by
    simp [List.isEmpty_iff, hne]
  have hrun : processPayslipSend env st bid =
      (updateBatch
        { st with payslips :=
            (sendChunks env (selectForSend st.payslips b.id) st.payslips).1 }
        b.id (fun u =>
          { u with status := "completed",
                   emailStatus :=
                     finalEmailStatus
                       (sendChunks env (selectForSend st.payslips b.id)
                         st.payslips).2,
                   successCount :=
                     (sendChunks env (selectForSend st.payslips b.id)
                       st.payslips).2.success,
                   failureCount :=
                     (sendChunks env (selectForSend st.payslips b.id)
                       st.payslips).2.failure,
                   completedAt := some env.now }),
       .ok { totalPayslips := (selectForSend st.payslips b.id).length,
             successCount :=
               (sendChunks env (selectForSend st.payslips b.id)
                 st.payslips).2.success,
             failureCount :=
               (sendChunks env (selectForSend st.payslips b.id)
                 st.payslips).2.failure,
             skippedCount :=
               (sendChunks env (selectForSend st.payslips b.id)
                 st.payslips).2.skipped,
             emailStatus :=
               finalEmailStatus
                 (sendChunks env (selectForSend st.payslips b.id)
                   st.payslips).2,
             message := none }) := by
    unfold processPayslipSend
    rw [hb]
    dsimp only
    rw [if_neg (by simp [List.isEmpty_iff, hne])]
  refine ⟨by rw [hrun], ?_, ?_⟩
  · intro c
    refine ⟨?_, ?_, ?_⟩
    · intro h0
      unfold finalEmailStatus
      rw [h0]
      simp
    · intro h1 h2
      unfold finalEmailStatus
      have : (decide (c.failure > 0) && decide (c.success > 0)) = true := by
        simp [h1, h2]
      rw [if_pos this]
    · intro h1 h2
      unfold finalEmailStatus
      have hA : (decide (c.failure > 0) && decide (c.success > 0)) = false := by
        simp [h2]
      rw [if_neg (by rw [hA]; exact Bool.false_ne_true)]
      have hB : (decide (c.failure > 0) && (c.success == 0)) = true := by
        simp [h1, h2]
      rw [if_pos hB]
  · intro u hu huid
    rw [hrun] at hu
    rcases updateBatch_mem _ _ _ u hu with ⟨v, hv, he⟩
    by_cases h0 : v.id = b.id
    · rw [he, if_pos h0]
      exact ⟨rfl, rfl, rfl, rfl, rfl⟩
    · exfalso
      rw [he, if_neg h0] at huid
      exact h0 huid

/-- C7 witness for the amended theorem: a run with one skipped and one
delivered record. -/
theorem c7_aggregate_outcome_witness :
    (findBatch stSkipPair 1 = some batchProcessed ∧
      selectForSend stSkipPair.payslips batchProcessed.id ≠ []) ∧
    ((processPayslipSend envDeliver stSkipPair 1).2 =
      .ok { totalPayslips :=
              (selectForSend stSkipPair.payslips batchProcessed.id).length,
            successCount :=
              (sendChunks envDeliver
                (selectForSend stSkipPair.payslips batchProcessed.id)
                stSkipPair.payslips).2.success,
            failureCount :=
              (sendChunks envDeliver
                (selectForSend stSkipPair.payslips batchProcessed.id)
                stSkipPair.payslips).2.failure,
            skippedCount :=
              (sendChunks envDeliver
                (selectForSend stSkipPair.payslips batchProcessed.id)
                stSkipPair.payslips).2.skipped,
            emailStatus :=
              finalEmailStatus
                (sendChunks envDeliver
                  (selectForSend stSkipPair.payslips batchProcessed.id)
                  stSkipPair.payslips).2,
            message := none } ∧
    (∀ c : SendCounts,
      (c.failure = 0 → finalEmailStatus c = "completed") ∧
      (c.failure > 0 → c.success > 0 → finalEmailStatus c = "partial") ∧
      (c.failure > 0 → c.success = 0 → finalEmailStatus c = "failed")) ∧
    (∀ u ∈ (processPayslipSend envDeliver stSkipPair 1).1.batches,
      u.id = batchProcessed.id →
      u.status = "completed" ∧
      u.emailStatus =
        finalEmailStatus
          (sendChunks envDeliver
            (selectForSend stSkipPair.payslips batchProcessed.id)
            stSkipPair.payslips).2 ∧
      u.successCount =
        (sendChunks envDeliver
          (selectForSend stSkipPair.payslips batchProcessed.id)
          stSkipPair.payslips).2.success ∧
      u.failureCount =
        (sendChunks envDeliver
          (selectForSend stSkipPair.payslips batchProcessed.id)
          stSkipPair.payslips).2.failure ∧
      u.completedAt = some 10)) :=
  ⟨⟨rfl, by decide⟩,
   c7_aggregate_outcome envDeliver stSkipPair 1 batchProcessed rfl
     (by decide)⟩

lemma updateBatch_failed_status (X : SysState) (i : Nat) :
    ∀ u ∈ (updateBatch X i (fun u => { u with status := "failed" })).batches,
      u.id = i → u.status = "failed" := by
  intro u hu hid
  rcases updateBatch_mem _ _ _ u hu with ⟨v, hv, he⟩
  by_cases h0 : v.id = i
  · rw [he, if_pos h0]
  · exfalso
    rw [he, if_neg h0] at hid
    exact h0 hid

/-- C5: during an ingest run processed + failed never exceeds the
candidate count (each candidate bumps at most one counter), and once the
run completes with state `'processed'`, processed + failed equals the
persisted total, which equals the candidate count — each candidate
incremented exactly one of the two counters. -/
theorem c5_ingest_counters (env : IngestEnv) (st : SysState)
    (job : UploadJob) (cands : List Candidate) (res : IngestResult)
    (hc : extractCandidates env.docOf job.fileName job.input = .ok cands)
    (hres : (processPayslipUpload env st job).2 = .ok res) :
    (∀ k nid : Nat,
      (ingestLoop env job.uploadId job.fileName job.payMonth
          (cands.take k) ⟨[], 0, 0, nid, none⟩).processed +
        (ingestLoop env job.uploadId job.fileName job.payMonth
          (cands.take k) ⟨[], 0, 0, nid, none⟩).failed ≤ cands.length) ∧
    res.processedFiles + res.failedFiles = res.totalFiles ∧
    res.totalFiles = cands.length ∧
    (∀ u ∈ (processPayslipUpload env st job).1.batches,
      u.id = job.uploadId →
        u.status = "processed" ∧ u.processedFiles = res.processedFiles ∧
        u.totalFiles = res.totalFiles) := by
  have hpart1 : ∀ k nid : Nat,
      (ingestLoop env job.uploadId job.fileName job.payMonth
          (cands.take k) ⟨[], 0, 0, nid, none⟩).processed +
        (ingestLoop env job.uploadId job.fileName job.payMonth
          (cands.take k) ⟨[], 0, 0, nid, none⟩).failed ≤ cands.length := by
    intro k nid
    have hle := ingestLoop_le env job.uploadId job.fileName job.payMonth
      (cands.take k) ⟨[], 0, 0, nid, none⟩
    simp only [] at hle
    have hlen : (cands.take k).length ≤ cands.length := by
      rw [List.length_take]
      omega
    omega
  unfold processPayslipUpload at hres ⊢
  cases hfb : findBatch st job.uploadId with
  | none =>
    rw [hfb] at hres
    exact absurd hres (by simp)
  | some b =>
    try rw [hfb] at hres
    try rw [hfb]
    dsimp only at hres ⊢
    try rw [hc] at hres
    try rw [hc]
    dsimp only at hres ⊢
    cases herr : (ingestChunks env job.uploadId job.fileName job.payMonth
        cands ⟨[], 0, 0, st.nextPayslipId, none⟩).err with
    | some e =>
      try rw [herr] at hres
      dsimp only at hres
      exact absurd hres (by simp)
    | none =>
      try rw [herr] at hres
      try rw [herr]
      dsimp only at hres ⊢
      injection hres with hX
      have hcount : (ingestChunks env job.uploadId job.fileName job.payMonth
            cands ⟨[], 0, 0, st.nextPayslipId, none⟩).processed +
          (ingestChunks env job.uploadId job.fileName job.payMonth cands
            ⟨[], 0, 0, st.nextPayslipId, none⟩).failed = cands.length := by
        rw [ingestChunks_eq] at herr ⊢
        have := ingestLoop_complete env job.uploadId job.fileName
          job.payMonth cands ⟨[], 0, 0, st.nextPayslipId, none⟩ herr
        simp only [] at this
        omega
      refine ⟨hpart1, ?_, ?_, ?_⟩
      · rw [← hX]
      · rw [← hX]
        exact hcount
      · intro u hu huid
        rcases updateBatch_mem _ _ _ u hu with ⟨v, hv, he⟩
        by_cases h0 : v.id = job.uploadId
        · rw [he, if_pos h0, ← hX]
          exact ⟨rfl, rfl, rfl⟩
        · exfalso
          rw [he, if_neg h0] at huid
          exact h0 huid

/-- C5 witness: a single resolvable candidate; the run completes with
processed = 1, failed = 0, total = 1. -/
theorem c5_ingest_counters_witness :
    (extractCandidates envIngest.docOf jobIngest.fileName jobIngest.input =
        .ok [⟨some "IPPIS001", 7⟩] ∧
      (processPayslipUpload envIngest stIngest jobIngest).2 =
        .ok { uploadId := 1, processedFiles := 1, failedFiles := 0,
              totalFiles := 1 }) ∧
    ((∀ k nid : Nat,
      (ingestLoop envIngest jobIngest.uploadId jobIngest.fileName
          jobIngest.payMonth (([⟨some "IPPIS001", 7⟩] :
            List Candidate).take k) ⟨[], 0, 0, nid, none⟩).processed +
        (ingestLoop envIngest jobIngest.uploadId jobIngest.fileName
          jobIngest.payMonth (([⟨some "IPPIS001", 7⟩] :
            List Candidate).take k) ⟨[], 0, 0, nid, none⟩).failed ≤
        ([⟨some "IPPIS001", 7⟩] : List Candidate).length) ∧
    (1 : Nat) + 0 = 1 ∧
    (1 : Nat) = ([⟨some "IPPIS001", 7⟩] : List Candidate).length ∧
    (∀ u ∈ (processPayslipUpload envIngest stIngest jobIngest).1.batches,
      u.id = jobIngest.uploadId →
        u.status = "processed" ∧ u.processedFiles = 1 ∧
        u.totalFiles = 1)) :=
  ⟨⟨rfl, rfl⟩,
   c5_ingest_counters envIngest stIngest jobIngest [⟨some "IPPIS001", 7⟩]
     { uploadId := 1, processedFiles := 1, failedFiles := 0, totalFiles := 1 }
     rfl rfl⟩

/-- C8: an error during an ingest run (here: corrupt input, store or
lookup failure surfacing through the try/catch) marks the batch
`status: 'failed'` and propagates as a job failure — the worker runtime
moves the submission to the terminal failed phase with that reason and
performs no automatic retry. -/
theorem c8_ingest_failure (env : IngestEnv) (st : SysState)
    (job : UploadJob) (e : String)
    (hb : ∃ b, findBatch st job.uploadId = some b)
    (hres : (processPayslipUpload env st job).2 = .error e) :
    (∀ u ∈ (processPayslipUpload env st job).1.batches,
      u.id = job.uploadId → u.status = "failed") ∧
    runPayslipUploadJob env st job =
      ((processPayslipUpload env st job).1, .failedJob e) := by
  constructor
  · obtain ⟨b, hfb⟩ := hb
    unfold processPayslipUpload at hres ⊢
    try rw [hfb] at hres
    try rw [hfb]
    dsimp only at hres ⊢
    cases hex : extractCandidates env.docOf job.fileName job.input with
    | error e2 =>
      try rw [hex] at hres
      try rw [hex]
      dsimp only at hres ⊢
      exact updateBatch_failed_status _ _
    | ok cands =>
      try rw [hex] at hres
      try rw [hex]
      dsimp only at hres ⊢
      cases herr : (ingestChunks env job.uploadId job.fileName job.payMonth
          cands ⟨[], 0, 0, st.nextPayslipId, none⟩).err with
      | some e2 =>
        try rw [herr] at hres
        try rw [herr]
        dsimp only at hres ⊢
        exact updateBatch_failed_status _ _
      | none =>
        try rw [herr] at hres
        dsimp only at hres
        exact absurd hres (by simp)
  · unfold runPayslipUploadJob
    rcases hpr : processPayslipUpload env st job with ⟨st2, r⟩
    rw [hpr] at hres
    dsimp only at hres
    subst hres
    rfl

/-- C8 witness: an upload whose document cannot be parsed; the batch ends
in `status: 'failed'` and the job submission ends in the failed phase. -/
theorem c8_ingest_failure_witness :
    ((∃ b, findBatch stIngest jobBad.uploadId = some b) ∧
      (processPayslipUpload envBadParse stIngest jobBad).2 =
        .error "Failed to split PDF file") ∧
    ((∀ u ∈ (processPayslipUpload envBadParse stIngest jobBad).1.batches,
      u.id = jobBad.uploadId → u.status = "failed") ∧
    runPayslipUploadJob envBadParse stIngest jobBad =
      ((processPayslipUpload envBadParse stIngest jobBad).1,
        .failedJob "Failed to split PDF file")) :=
  ⟨⟨⟨batchIngest, rfl⟩, rfl⟩,
   c8_ingest_failure envBadParse stIngest jobBad "Failed to split PDF file"
     ⟨batchIngest, rfl⟩ rfl⟩

/-- C4: on every store reachable from an empty payslip table by any
sequence of ingest and distribution operations, a record in delivery
state sent has its timestamp set and a null last error, and a record in
state send-failed has a non-null last error. -/
theorem c4_record_invariants (bs : List PayslipUpload) (n : Nat)
    (ops : List Op) :
    ∀ p ∈ (applyOps ⟨bs, [], n⟩ ops).payslips,
      (deliveryState p = .sent →
        p.emailSentAt.isSome = true ∧ p.emailError = none) ∧
      (deliveryState p = .sendFailed → p.emailError ≠ none) := by
  intro p hp
  have hinv : SysInv (applyOps ⟨bs, [], n⟩ ops) :=
    applyOps_inv ops ⟨bs, [], n⟩ ⟨by simp, by simp, by simp⟩
  refine ⟨?_, fun h => deliveryState_sendFailed_err p h⟩
  intro hs
  exact hinv.2.2 p hp (deliveryState_sent_emailSent p hs)

/-- C4 witness: the record created by one concrete ingest run. -/
theorem c4_record_invariants_witness :
    recCreated ∈ (applyOps ⟨[batchIngest], [], 1⟩
        [.ingestOp envIngest jobIngest]).payslips ∧
    ((deliveryState recCreated = .sent →
        recCreated.emailSentAt.isSome = true ∧
          recCreated.emailError = none) ∧
      (deliveryState recCreated = .sendFailed →
        recCreated.emailError ≠ none)) :=
  ⟨by decide,
   c4_record_invariants [batchIngest] 1 [.ingestOp envIngest jobIngest]
     recCreated (by decide)⟩

end PayslipMailer
